import Mathlib

/-!
Verification development for the symbol geometry synthesis engine of the
repository: a vector-geometry kernel, a style registry and per-symbol
generator functions.  The two generators present in the source are embedded
faithfully: the obstacle boundary generator for FORD DIFFICULT
(identifier G*M*BCD---) and the task generator CLEAR (identifier
G*T*X-----).  Kernel operations and the registry/engine entry points are
not part of the given source tree; they are modelled from the
specification, as indicated on each such definition.
-/

open scoped Classical

namespace ODIN

/-- Failure conditions named by the specification. -/
inductive Condition where
  | DegenerateGeometry
  | InvalidParameter
  | ConflictingDefinition
  | NotFound
deriving DecidableEq

/-- A planar coordinate: an ordered pair of real numbers. -/
abbrev Coord := ℝ × ℝ

/-- A segment: two coordinates (start, end). -/
structure Segment where
  p0 : Coord
  p1 : Coord

/-- Modelled from the spec: the kernel attribute angle of a segment is not
under src (only its callers in the two generators are).  Bearing from start
to end with standard atan2 semantics, expressed through the complex
argument of the difference end minus start; range is (-pi, pi]. -/
noncomputable def Segment.angle (s : Segment) : ℝ :=
  Complex.arg ⟨s.p1.1 - s.p0.1, s.p1.2 - s.p0.2⟩

/-- Modelled from the spec: the kernel attribute midPoint of a segment is
not under src.  Arithmetic mean of the two endpoints. -/
noncomputable def Segment.midPoint (s : Segment) : Coord :=
  ((s.p0.1 + s.p1.1) / 2, (s.p0.2 + s.p1.2) / 2)

/-- Unit direction vector at a bearing. -/
noncomputable def dir (θ : ℝ) : Coord := (Real.cos θ, Real.sin θ)

/-- Unit direction vector rotated by plus pi over two. -/
noncomputable def perp (θ : ℝ) : Coord := (-Real.sin θ, Real.cos θ)

/-- Modelled from the spec: the kernel operation projectCoordinates is not
under src (only its callers in the two generators are).  This is the single
pair case: for an offset pair (alongFactor, perpFactor) it returns
origin + alongFactor * distance * dir angle + perpFactor * distance * perp
angle, written out in components. -/
noncomputable def projectCoordinate (distance θ : ℝ) (origin : Coord)
    (ab : ℝ × ℝ) : Coord :=
  (origin.1 + ab.1 * distance * Real.cos θ - ab.2 * distance * Real.sin θ,
   origin.2 + ab.1 * distance * Real.sin θ + ab.2 * distance * Real.cos θ)

/-- Modelled from the spec: projectCoordinates maps the single pair
projection over the offset list. -/
noncomputable def projectCoordinates (distance θ : ℝ) (origin : Coord)
    (offsets : List (ℝ × ℝ)) : List Coord :=
  offsets.map (projectCoordinate distance θ origin)

/-- Modelled from the spec: the kernel constructor segment from two
coordinates is not under src.  Fails with DegenerateGeometry when the two
coordinates coincide. -/
noncomputable def tsSegment (a b : Coord) : Except Condition Segment :=
  if a = b then .error .DegenerateGeometry else .ok ⟨a, b⟩

/-- Modelled from the spec: the kernel constructor segment from a
LineString coordinate list is not under src.  Uses first and last
coordinate; fails with DegenerateGeometry on fewer than two coordinates or
when first and last coincide. -/
noncomputable def tsSegmentCoords : List Coord → Except Condition Segment
  | [] => .error .DegenerateGeometry
  | a :: rest =>
    match rest.getLast? with
    | none => .error .DegenerateGeometry
    | some b => if a = b then .error .DegenerateGeometry else .ok ⟨a, b⟩

/-- Modelled from the spec: the kernel operation startPoint is not under
src.  First coordinate of a LineString. -/
noncomputable def startPoint (lineString : List Coord) : Coord :=
  lineString.headI

/-- Modelled from the spec: the kernel operation endPoint is not under src.
Last coordinate of a LineString. -/
noncomputable def endPoint (lineString : List Coord) : Coord :=
  lineString.getLastI

/-- The list of m + 1 evenly spaced coordinates subdividing a segment into
m sub-segments. -/
noncomputable def subdivision (s : Segment) (m : ℕ) : List Coord :=
  (List.range (m + 1)).map fun i : ℕ =>
    (s.p0.1 + (i : ℝ) / (m : ℝ) * (s.p1.1 - s.p0.1),
     s.p0.2 + (i : ℝ) / (m : ℝ) * (s.p1.2 - s.p0.2))

/-- Modelled from the spec: the kernel operation segmentize is not under
src (only its caller in the ford difficult generator is).  Evenly
subdivides a segment into n sub-segments returning n + 1 coordinates; n
must be at least 1, otherwise it fails with InvalidParameter. -/
noncomputable def segmentize (s : Segment) (n : ℤ) :
    Except Condition (List Coord) :=
  if n < 1 then .error .InvalidParameter else .ok (subdivision s n.toNat)

/-- Every other element of a list starting with the first when keep is
true: the embedding of filtering on even (keep = true) respectively odd
(keep = false) positions. -/
def alternate : Bool → List Coord → List Coord
  | _, [] => []
  | true, a :: rest => a :: alternate false rest
  | false, _ :: rest => alternate true rest

/-- Flattening a list of pairs into the list of their components in order:
the embedding of R.flatten over R.zip output. -/
def flattenPairs : List (Coord × Coord) → List Coord
  | [] => []
  | (a, b) :: rest => a :: b :: flattenPairs rest

/-- Geometries produced by the kernel.  Region valued operations
(buffering, boundary extraction, boolean difference) and the open arrow
marker are modelled from the spec as symbolic constructors, since their
implementations are not under src; the generators only compose them. -/
inductive Geometry where
  | lineStringG (coords : List Coord)
  | pointG (c : Coord)
  | lineBufferG (line : List Coord) (w : ℝ)
  | pointBufferG (c : Coord) (radius : ℝ)
  | boundaryG (g : Geometry)
  | differenceG (gs : List Geometry)
  | collectG (gs : List Geometry)
  | arrowG (resolution θ : ℝ) (anchor : Coord)

/-- Modelled from the spec: the open arrow helper from the commons module
is not under src; an open arrow marker at a coordinate for a given bearing
and resolution. -/
def openArrow (resolution θ : ℝ) (coord : Coord) : Geometry :=
  .arrowG resolution θ coord

/-- Drawable primitives returned by generators.  The style context
constructors dashedStroke, solidStroke, defaultStroke and text are
modelled from the spec as the corresponding constructors. -/
inductive Primitive where
  | dashedStroke (g : Geometry)
  | solidStroke (g : Geometry)
  | defaultStroke (g : Geometry)
  | text (anchor : Coord) (content : String) (flip : Bool) (rotation : ℝ)

/-- The input record a generator receives. -/
structure GenInput where
  lineString : List Coord
  width : ℝ
  resolution : ℝ

/-- A generator function. -/
def Generator : Type :=
  GenInput → Except Condition (List Primitive)

/-- The obstacle boundary generator for FORD DIFFICULT, identifier
G*M*BCD---, embedded from the source. -/
noncomputable def fordDifficult : Generator := fun input =>
  match tsSegmentCoords input.lineString with
  | .error e => .error e
  | .ok segment =>
    let θ := segment.angle
    let midPoint := segment.midPoint
    let p0 := projectCoordinate (input.width / 1.5) θ midPoint (0, 1)
    let p1 := projectCoordinate (input.width / 1.5) θ midPoint (0, -1)
    let p00 := projectCoordinate (input.resolution * 4) θ p0 (-1, 0)
    let p01 := projectCoordinate (input.resolution * 4) θ p0 (1, 0)
    let p10 := projectCoordinate (input.resolution * 4) θ p1 (-1, 0)
    let p11 := projectCoordinate (input.resolution * 4) θ p1 (1, 0)
    let n := ⌊input.width / input.resolution / 5⌋
    match tsSegment p00 p10, tsSegment p01 p11 with
    | .ok s1, .ok s2 =>
      match segmentize s1 n, segmentize s2 n with
      | .ok l1, .ok l2 =>
        let x := flattenPairs (List.zip (alternate true l1) (alternate false l2))
        .ok [.dashedStroke (.differenceG [
                .boundaryG (.lineBufferG input.lineString (input.width / 2)),
                .pointBufferG (startPoint input.lineString) (input.width / 2),
                .pointBufferG (endPoint input.lineString) (input.width / 2)]),
             .solidStroke (.lineStringG x)]
      | .error e, _ => .error e
      | _, .error e => .error e
    | .error e, _ => .error e
    | _, .error e => .error e

/-- The task generator CLEAR, identifier G*T*X-----, embedded from the
source. -/
noncomputable def clearTask : Generator := fun input =>
  match tsSegmentCoords input.lineString with
  | .error e => .error e
  | .ok segment =>
    match input.lineString with
    | c0 :: c1 :: _ =>
      let θ := segment.angle
      let p00 := projectCoordinate (input.width / 2) θ c0 (0, 0.75)
      let p01 := projectCoordinate (input.width / 2) θ c0 (0, -0.75)
      let p10 := projectCoordinate (input.width / 2) θ c1 (0, 0.75)
      let p11 := projectCoordinate (input.width / 2) θ c1 (0, -0.75)
      let p20 := projectCoordinate (input.width / 2) θ c1 (0, 1)
      let p21 := projectCoordinate (input.width / 2) θ c1 (0, -1)
      let arrows := [p10, c1, p11].map (openArrow input.resolution θ)
      let geometry := Geometry.collectG ([
        Geometry.lineStringG input.lineString,
        Geometry.lineStringG [p00, p10],
        Geometry.lineStringG [p01, p11],
        Geometry.lineStringG [p20, p21]] ++ arrows)
      .ok [.defaultStroke geometry,
           .text segment.midPoint "C" true (Real.pi - θ)]
    | _ => .error .DegenerateGeometry

/-- Modelled from the spec: the style registry module is not under src
(only the two registration statements are).  Registration is additive;
registering an identifier already present fails fast with
ConflictingDefinition. -/
def register (registry : List (String × Generator)) (identifier : String)
    (g : Generator) : Except Condition (List (String × Generator)) :=
  if (registry.map Prod.fst).contains identifier then
    .error .ConflictingDefinition
  else .ok (registry ++ [(identifier, g)])

/-- Modelled from the spec: the engine entry point synthesize is not under
src.  Width and resolution must be positive, otherwise it fails with
InvalidParameter; an unregistered identifier yields NotFound; otherwise
the registered generator runs on the input. -/
noncomputable def synthesize (registry : List (String × Generator))
    (identifier : String) (lineString : List Coord) (width resolution : ℝ) :
    Except Condition (List Primitive) :=
  if width ≤ 0 ∨ resolution ≤ 0 then .error .InvalidParameter
  else
    match registry.lookup identifier with
    | none => .error .NotFound
    | some g => g ⟨lineString, width, resolution⟩

/-- Vertex list of a non-composite geometry; region valued nodes are
symbolic and contribute no vertices, an arrow contributes its anchor. -/
def flatVertices : Geometry → List Coord
  | .lineStringG cs => cs
  | .pointG c => [c]
  | .arrowG _ _ c => [c]
  | _ => []

/-- Vertex list of a geometry, one level of collect deep. -/
def groupVertices : Geometry → List Coord
  | .collectG gs => gs.flatMap flatVertices
  | g => flatVertices g

/-- Vertices of the geometry of the first primitive of a generator
result. -/
def strokeVertices : Except Condition (List Primitive) → List Coord
  | .ok (.defaultStroke g :: _) => groupVertices g
  | .ok (.dashedStroke g :: _) => groupVertices g
  | .ok (.solidStroke g :: _) => groupVertices g
  | _ => []

/-- Coordinates of the solid zig-zag connector line, the second primitive
of the ford difficult generator result. -/
def zigCoords : Except Condition (List Primitive) → List Coord
  | .ok [_, .solidStroke (.lineStringG l)] => l
  | _ => []

/-- Lengths of the even and odd position sublists. -/
theorem alternate_length (l : List Coord) :
    (alternate true l).length = (l.length + 1) / 2 ∧
    (alternate false l).length = l.length / 2 := by
  induction l with
  | nil => simp [alternate]
  | cons a rest ih =>
    refine ⟨?_, ?_⟩
    · simp only [alternate, List.length_cons, ih.2]; omega
    · simp only [alternate, List.length_cons, ih.1]

/-- Element extraction from the even and odd position sublists. -/
theorem alternate_getElem? (l : List Coord) (k : ℕ) :
    (alternate true l)[k]? = l[2 * k]? ∧
    (alternate false l)[k]? = l[2 * k + 1]? := by
  induction l generalizing k with
  | nil => simp [alternate]
  | cons a rest ih =>
    constructor
    · cases k with
      | zero => simp [alternate]
      | succ k =>
        have h2 : 2 * (k + 1) = 2 * k + 1 + 1 := by omega
        simp only [alternate, List.getElem?_cons_succ, h2]
        exact (ih k).2
    · simp only [alternate, List.getElem?_cons_succ]
      exact (ih k).1

/-- Length of the flattened pair list. -/
theorem flattenPairs_length (ps : List (Coord × Coord)) :
    (flattenPairs ps).length = 2 * ps.length := by
  induction ps with
  | nil => simp [flattenPairs]
  | cons p rest ih =>
    obtain ⟨x, y⟩ := p
    simp only [flattenPairs, List.length_cons, ih]
    omega

/-- Element extraction from the flattened pair list. -/
theorem flattenPairs_getElem? (ps : List (Coord × Coord)) (k : ℕ) :
    (flattenPairs ps)[2 * k]? = (ps[k]?).map Prod.fst ∧
    (flattenPairs ps)[2 * k + 1]? = (ps[k]?).map Prod.snd := by
  induction ps generalizing k with
  | nil => simp [flattenPairs]
  | cons p rest ih =>
    obtain ⟨x, y⟩ := p
    cases k with
    | zero => simp [flattenPairs]
    | succ k =>
      have h1 : 2 * (k + 1) = 2 * k + 1 + 1 := by omega
      have h2 : 2 * (k + 1) + 1 = 2 * k + 1 + 1 + 1 := by omega
      simp only [flattenPairs, h1, h2, List.getElem?_cons_succ]
      exact ih k

/-- Element extraction from a zipped list. -/
theorem zip_getElem? (l1 l2 : List Coord) (k : ℕ) (h1 : k < l1.length)
    (h2 : k < l2.length) :
    ∃ x y, (List.zip l1 l2)[k]? = some (x, y) ∧ l1[k]? = some x ∧
      l2[k]? = some y := by
  refine ⟨l1[k], l2[k], ?_, List.getElem?_eq_getElem h1,
    List.getElem?_eq_getElem h2⟩
  rw [List.zip, List.getElem?_zipWith, List.getElem?_eq_getElem h1,
    List.getElem?_eq_getElem h2]

/-- Helper: looking a key up in a registry extended by two fresh bindings
does not depend on the order of the two bindings when their keys differ. -/
theorem lookup_swap_pair (reg : List (String × Generator)) (id1 id2 : String)
    (g1 g2 : Generator) (hne : id1 ≠ id2) (s : String) :
    (reg ++ [(id1, g1), (id2, g2)]).lookup s =
      (reg ++ [(id2, g2), (id1, g1)]).lookup s := by
  induction reg with
  | nil =>
    simp only [List.nil_append, List.lookup]
    by_cases h1 : s = id1
    · subst h1
      have h2 : (s == id2) = false := beq_eq_false_iff_ne.mpr hne
      simp [h2]
    · have h1b : (s == id1) = false := beq_eq_false_iff_ne.mpr h1
      simp [h1b]
  | cons p t ih =>
    obtain ⟨k, v⟩ := p
    simp only [List.cons_append, List.lookup]
    cases hbeq : s == k
    · exact ih
    · rfl

/-- Claim C8: projectCoordinates maps each offset pair (alongFactor,
perpFactor) to origin plus alongFactor times distance times the unit
vector at the angle plus perpFactor times distance times that vector
rotated by plus pi over two, and its results are invariant under
translating the origin and re-translating the results back. -/
theorem claim8_projectCoordinates (d θ : ℝ) (o t : Coord)
    (offsets : List (ℝ × ℝ)) :
    projectCoordinates d θ o offsets =
      offsets.map (fun ab => o + ab.1 • d • dir θ + ab.2 • d • perp θ) ∧
    projectCoordinates d θ (o + t) offsets =
      (projectCoordinates d θ o offsets).map (fun c => c + t) := by
  constructor
  · unfold projectCoordinates
    have hf : projectCoordinate d θ o =
        fun ab => o + ab.1 • d • dir θ + ab.2 • d • perp θ := by
      funext ab
      unfold projectCoordinate dir perp
      rw [Prod.ext_iff]
      constructor
      · simp only [Prod.fst_add, Prod.smul_fst, smul_eq_mul]; ring
      · simp only [Prod.snd_add, Prod.smul_snd, smul_eq_mul]; ring
    rw [hf]
  · unfold projectCoordinates
    rw [List.map_map]
    have hg : (fun c => c + t) ∘ projectCoordinate d θ o =
        projectCoordinate d θ (o + t) := by
      funext ab
      simp only [Function.comp_apply]
      unfold projectCoordinate
      rw [Prod.ext_iff]
      constructor
      · simp only [Prod.fst_add]; ring
      · simp only [Prod.snd_add]; ring
    rw [hg]

/-- Claim C9: for distinct endpoints, the angle of a segment lies in the
half-open interval from minus pi exclusive to pi inclusive, reversing the
segment adds exactly pi modulo two pi, the angle is invariant under
translating both endpoints by the same vector, and it is unchanged when
the segment is rescaled by any positive factor, hence unaffected by
length. -/
theorem claim9_angle (a b : Coord) (hab : a ≠ b) :
    Segment.angle ⟨a, b⟩ ∈ Set.Ioc (-Real.pi) Real.pi ∧
    ((Segment.angle ⟨b, a⟩ : Real.Angle) =
      (Segment.angle ⟨a, b⟩ : Real.Angle) + (Real.pi : Real.Angle)) ∧
    (∀ t : Coord, Segment.angle ⟨a + t, b + t⟩ = Segment.angle ⟨a, b⟩) ∧
    (∀ s : ℝ, 0 < s →
      Segment.angle ⟨a, a + s • (b - a)⟩ = Segment.angle ⟨a, b⟩) := by
  have hz : (⟨b.1 - a.1, b.2 - a.2⟩ : ℂ) ≠ 0 := by
    intro h
    apply hab
    rw [Complex.ext_iff] at h
    simp only [Complex.zero_re, Complex.zero_im] at h
    rw [Prod.ext_iff]
    constructor
    · linarith [h.1]
    · linarith [h.2]
  refine ⟨Complex.arg_mem_Ioc _, ?_, ?_, ?_⟩
  · have hneg : (⟨a.1 - b.1, a.2 - b.2⟩ : ℂ) = -⟨b.1 - a.1, b.2 - a.2⟩ := by
      rw [Complex.ext_iff]
      constructor
      · simp only [Complex.neg_re]; ring
      · simp only [Complex.neg_im]; ring
    unfold Segment.angle
    simp only
    rw [hneg]
    exact Complex.arg_neg_coe_angle hz
  · intro t
    unfold Segment.angle
    simp only
    congr 1
    rw [Complex.ext_iff]
    constructor
    · simp only [Prod.fst_add]; ring
    · simp only [Prod.snd_add]; ring
  · intro s hs
    unfold Segment.angle
    simp only
    have hmul : (⟨(a + s • (b - a)).1 - a.1, (a + s • (b - a)).2 - a.2⟩ : ℂ) =
        (s : ℂ) * ⟨b.1 - a.1, b.2 - a.2⟩ := by
      rw [Complex.ext_iff]
      constructor
      · simp only [Complex.re_ofReal_mul, Prod.fst_add, Prod.smul_fst,
          Prod.fst_sub, smul_eq_mul]
        ring
      · simp only [Complex.im_ofReal_mul, Prod.snd_add, Prod.smul_snd,
          Prod.snd_sub, smul_eq_mul]
        ring
    rw [hmul]
    exact Complex.arg_real_mul _ hs

/-- Witness for claim C9 at the concrete segment from the origin to
(3, 4). -/
theorem claim9_angle_witness :
    ((((0 : ℝ), (0 : ℝ)) : Coord) ≠ (((3 : ℝ), (4 : ℝ)) : Coord)) ∧
    Segment.angle ⟨((0 : ℝ), (0 : ℝ)), ((3 : ℝ), (4 : ℝ))⟩ ∈
      Set.Ioc (-Real.pi) Real.pi :=
  ⟨by norm_num [Prod.ext_iff],
   (claim9_angle ((0 : ℝ), (0 : ℝ)) ((3 : ℝ), (4 : ℝ))
     (by norm_num [Prod.ext_iff])).1⟩

/-- Claim C7: segmentize on a segment with subdivision count n at least 1
returns exactly n plus 1 coordinates, evenly spaced, the first equal to
the start and the last equal to the end; for n below 1 it fails with
InvalidParameter. -/
theorem claim7_segmentize (a b : Coord) (n : ℤ) :
    (1 ≤ n →
      segmentize ⟨a, b⟩ n = .ok (subdivision ⟨a, b⟩ n.toNat) ∧
      (subdivision ⟨a, b⟩ n.toNat).length = n.toNat + 1 ∧
      (subdivision ⟨a, b⟩ n.toNat).head? = some a ∧
      (subdivision ⟨a, b⟩ n.toNat).getLast? = some b ∧
      (∀ i : ℕ, i ≤ n.toNat →
        (subdivision ⟨a, b⟩ n.toNat)[i]? =
          some (a.1 + (i : ℝ) / (n.toNat : ℝ) * (b.1 - a.1),
                a.2 + (i : ℝ) / (n.toNat : ℝ) * (b.2 - a.2)))) ∧
    (n < 1 → segmentize ⟨a, b⟩ n = .error .InvalidParameter) := by
  constructor
  · intro hn
    have hm : n.toNat ≠ 0 := by omega
    have hget : ∀ i : ℕ, i ≤ n.toNat →
        (subdivision ⟨a, b⟩ n.toNat)[i]? =
          some (a.1 + (i : ℝ) / (n.toNat : ℝ) * (b.1 - a.1),
                a.2 + (i : ℝ) / (n.toNat : ℝ) * (b.2 - a.2)) := by
      intro i hi
      unfold subdivision
      rw [List.getElem?_map, List.getElem?_range (by omega)]
      rfl
    refine ⟨?_, ?_, ?_, ?_, hget⟩
    · unfold segmentize
      rw [if_neg (by omega)]
    · unfold subdivision
      simp
    · rw [List.head?_eq_getElem?, hget 0 (by omega)]
      norm_num
    · rw [List.getLast?_eq_getElem?]
      have hlen : (subdivision ⟨a, b⟩ n.toNat).length = n.toNat + 1 := by
        unfold subdivision; simp
      rw [hlen]
      simp only [Nat.add_sub_cancel]
      rw [hget n.toNat le_rfl]
      have hdiv : ((n.toNat : ℝ)) / ((n.toNat : ℝ)) = 1 := by
        apply div_self
        exact_mod_cast hm
      rw [hdiv]
      norm_num
  · intro hn
    unfold segmentize
    rw [if_pos hn]

/-- Witness for claim C7 on the segment from the origin to (4, 6) with
subdivision count 2. -/
theorem claim7_segmentize_witness :
    (1 ≤ (2 : ℤ)) ∧
    (subdivision ⟨((0 : ℝ), (0 : ℝ)), ((4 : ℝ), (6 : ℝ))⟩
      (Int.toNat 2)).length = Int.toNat 2 + 1 :=
  ⟨by norm_num,
   ((claim7_segmentize ((0 : ℝ), (0 : ℝ)) ((4 : ℝ), (6 : ℝ)) 2).1
     (by norm_num)).2.1⟩

/-- Claim C6: synthesize fails with InvalidParameter whenever width or
resolution is not positive, for every registry, identifier and base
geometry. -/
theorem claim6_synthesize_invalid (registry : List (String × Generator))
    (identifier : String) (lineString : List Coord) (w r : ℝ)
    (h : w ≤ 0 ∨ r ≤ 0) :
    synthesize registry identifier lineString w r =
      .error .InvalidParameter := by
  unfold synthesize
  rw [if_pos h]

/-- Witness for claim C6: width zero on the registered ford difficult
identifier. -/
theorem claim6_synthesize_invalid_witness :
    ((0 : ℝ) ≤ 0 ∨ (1 : ℝ) ≤ 0) ∧
    synthesize [("G*M*BCD---", fordDifficult)] "G*M*BCD---"
      [((0 : ℝ), (0 : ℝ)), ((100 : ℝ), (0 : ℝ))] 0 1 =
      .error .InvalidParameter :=
  ⟨Or.inl le_rfl,
   claim6_synthesize_invalid _ _ _ _ _ (Or.inl le_rfl)⟩

/-- Claim C5: both embedded generators are deterministic pure functions:
identical input tuples produce structurally identical primitive
sequences. -/
theorem claim5_generators_deterministic (i1 i2 : GenInput)
    (h1 : i1.lineString = i2.lineString) (h2 : i1.width = i2.width)
    (h3 : i1.resolution = i2.resolution) :
    fordDifficult i1 = fordDifficult i2 ∧ clearTask i1 = clearTask i2 := by
  have : i1 = i2 := by
    cases i1; cases i2
    simp_all
  rw [this]
  exact ⟨rfl, rfl⟩

/-- Witness for claim C5 at a concrete pair of identical inputs. -/
theorem claim5_generators_deterministic_witness :
    (GenInput.mk [((0 : ℝ), (0 : ℝ)), ((100 : ℝ), (0 : ℝ))] 10 1).lineString =
      (GenInput.mk [((0 : ℝ), (0 : ℝ)), ((100 : ℝ), (0 : ℝ))] 10 1).lineString ∧
    fordDifficult (GenInput.mk [((0 : ℝ), (0 : ℝ)), ((100 : ℝ), (0 : ℝ))] 10 1) =
      fordDifficult (GenInput.mk [((0 : ℝ), (0 : ℝ)), ((100 : ℝ), (0 : ℝ))] 10 1) :=
  ⟨rfl,
   (claim5_generators_deterministic _ _ rfl rfl rfl).1⟩

/-- Claim C4: registration is additive and order-independent and no two
generators may claim the same identifier: a second registration of an
already registered identifier fails fast with ConflictingDefinition, and
registering two distinct identifiers in either order yields registries
with identical lookup behavior. -/
theorem claim4_register (reg : List (String × Generator)) (id1 id2 : String)
    (g1 g2 : Generator) :
    (∀ reg2, register reg id1 g1 = .ok reg2 →
      register reg2 id1 g2 = .error .ConflictingDefinition) ∧
    (id1 ≠ id2 → ∀ ra rb rc rd,
      register reg id1 g1 = .ok ra → register ra id2 g2 = .ok rb →
      register reg id2 g2 = .ok rc → register rc id1 g1 = .ok rd →
      ∀ s, rb.lookup s = rd.lookup s) := by
  constructor
  · intro reg2 h
    unfold register at h ⊢
    by_cases hc : (reg.map Prod.fst).contains id1
    · rw [if_pos hc] at h
      cases h
    · rw [if_neg hc] at h
      have hreg2 : reg2 = reg ++ [(id1, g1)] := by
        cases h; rfl
      subst hreg2
      rw [if_pos]
      simp [List.contains_eq_any_beq]
  · intro hne ra rb rc rd h1 h2 h3 h4 s
    unfold register at h1 h2 h3 h4
    by_cases hc1 : (reg.map Prod.fst).contains id1
    · rw [if_pos hc1] at h1; cases h1
    by_cases hc2 : (reg.map Prod.fst).contains id2
    · rw [if_pos hc2] at h3; cases h3
    rw [if_neg hc1] at h1
    rw [if_neg hc2] at h3
    have hra : ra = reg ++ [(id1, g1)] := by cases h1; rfl
    have hrc : rc = reg ++ [(id2, g2)] := by cases h3; rfl
    subst hra hrc
    split at h2
    · cases h2
    · have hrb : rb = (reg ++ [(id1, g1)]) ++ [(id2, g2)] := by cases h2; rfl
      split at h4
      · cases h4
      · have hrd : rd = (reg ++ [(id2, g2)]) ++ [(id1, g1)] := by cases h4; rfl
        subst hrb hrd
        rw [List.append_assoc, List.append_assoc]
        exact lookup_swap_pair reg id1 id2 g1 g2 hne s

/-- Witness for claim C4: registering the ford difficult identifier twice,
the second attempt fails with ConflictingDefinition. -/
theorem claim4_register_witness :
    register [] "G*M*BCD---" fordDifficult =
      .ok [("G*M*BCD---", fordDifficult)] ∧
    register [("G*M*BCD---", fordDifficult)] "G*M*BCD---" clearTask =
      .error .ConflictingDefinition :=
  ⟨by simp [register],
   (claim4_register [] "G*M*BCD---" "G*T*X-----" fordDifficult clearTask).1
     [("G*M*BCD---", fordDifficult)] (by simp [register])⟩

/-- Helper: the bearing of a horizontal segment pointing in the positive
x direction is zero. -/
theorem angle_horizontal (x1 x2 y : ℝ) (h : x1 < x2) :
    Segment.angle ⟨(x1, y), (x2, y)⟩ = 0 := by
  unfold Segment.angle
  rw [Complex.arg_eq_zero_iff]
  constructor
  · simp only
    linarith
  · simp only
    ring

/-- Helper: opposite perpendicular projections from the same origin are
distinct when the distance is nonzero. -/
theorem projectCoordinate_perp_ne (d θ : ℝ) (o : Coord) (hd : d ≠ 0) :
    projectCoordinate d θ o (0, 1) ≠ projectCoordinate d θ o (0, -1) := by
  intro h
  unfold projectCoordinate at h
  rw [Prod.ext_iff] at h
  simp only at h
  have hs : Real.sin θ = 0 := by
    rcases h with ⟨h1, -⟩
    have : d * Real.sin θ = 0 := by linarith
    rcases mul_eq_zero.mp this with h | h
    · exact absurd h hd
    · exact h
  have hc : Real.cos θ = 0 := by
    rcases h with ⟨-, h2⟩
    have : d * Real.cos θ = 0 := by linarith
    rcases mul_eq_zero.mp this with h | h
    · exact absurd h hd
    · exact h
  have hone := Real.sin_sq_add_cos_sq θ
  rw [hc, hs] at hone
  norm_num at hone

/-- Helper: projecting two distinct origins by the same offset yields
distinct coordinates. -/
theorem projectCoordinate_translate_ne (d θ : ℝ) (o1 o2 : Coord)
    (ab : ℝ × ℝ) (h : o1 ≠ o2) :
    projectCoordinate d θ o1 ab ≠ projectCoordinate d θ o2 ab := by
  intro he
  apply h
  unfold projectCoordinate at he
  rw [Prod.ext_iff] at he
  rw [Prod.ext_iff]
  constructor
  · have h1 := he.1
    simp only at h1
    linarith
  · have h2 := he.2
    simp only at h2
    linarith

/-- Helper: evaluation of the ford difficult generator on the horizontal
segment from the origin to (100, 0) with width 10 and resolution 1.  The
two subdivided segments are the perpendicular cross-bars at x equal to 46
and 54, each joining the plus and minus width over 1.5 offsets. -/
theorem fordScenarioA_eval :
    fordDifficult ⟨[((0 : ℝ), (0 : ℝ)), ((100 : ℝ), (0 : ℝ))], 10, 1⟩ =
      .ok [.dashedStroke (.differenceG [
             .boundaryG (.lineBufferG [((0 : ℝ), (0 : ℝ)), ((100 : ℝ), (0 : ℝ))] 5),
             .pointBufferG ((0 : ℝ), (0 : ℝ)) 5,
             .pointBufferG ((100 : ℝ), (0 : ℝ)) 5]),
           .solidStroke (.lineStringG
             [((46 : ℝ), (20 / 3 : ℝ)), ((54 : ℝ), (0 : ℝ))])] := by
  have hseg : tsSegmentCoords [((0 : ℝ), (0 : ℝ)), ((100 : ℝ), (0 : ℝ))] =
      .ok ⟨((0 : ℝ), (0 : ℝ)), ((100 : ℝ), (0 : ℝ))⟩ := by
    simp only [tsSegmentCoords, List.getLast?_singleton]
    rw [if_neg (by norm_num [Prod.ext_iff])]
  have hangle : Segment.angle ⟨((0 : ℝ), (0 : ℝ)), ((100 : ℝ), (0 : ℝ))⟩ = 0 :=
    angle_horizontal 0 100 0 (by norm_num)
  have hfloor : ⌊(10 : ℝ) / 1 / 5⌋ = (2 : ℤ) := by norm_num
  have htn : ((2 : ℤ)).toNat = 2 := rfl
  simp only [fordDifficult, hseg, hangle]
  norm_num [projectCoordinate, Segment.midPoint, tsSegment, segmentize,
    subdivision, startPoint, endPoint, alternate, flattenPairs,
    List.getLastI, List.getLastD, Real.cos_zero, Real.sin_zero,
    Prod.ext_iff, List.range_succ, hfloor, htn]

/-- Claim C1 counterexample: on the horizontal segment from the origin to
(100, 0) with width 10 and resolution 1, the solid zig-zag connector line
has exactly 2 coordinates, hence a single segment, not the claimed
floor(10/1/5) = 2 segments (which would require 3 coordinates). -/
theorem claim1_counterexample :
    (zigCoords (fordDifficult ⟨[((0 : ℝ), (0 : ℝ)), ((100 : ℝ), (0 : ℝ))], 10, 1⟩)).length = 2 ∧
    (zigCoords (fordDifficult ⟨[((0 : ℝ), (0 : ℝ)), ((100 : ℝ), (0 : ℝ))], 10, 1⟩)).length ≠ 3 := by
  rw [fordScenarioA_eval]
  simp [zigCoords]

/-- Claim C1 (amended): the obstacle boundary generator on the horizontal
segment from the origin to (100, 0) with width 10 and resolution 1 returns
a dashed stroke of the width/2 buffered boundary outline with the two
width/2 end cap disks subtracted, followed by a solid zig-zag connector
line with 2 coordinates (a single segment) from (46, 20/3) to (54, 0):
it descends from the plus width over 1.5 offset side down to the base
line, and at the midpoint abscissa x equal to 50 (parameter one half) it
passes through (50, 10/3), not through the midpoint (50, 0). -/
theorem claim1_ford_scenarioA :
    fordDifficult ⟨[((0 : ℝ), (0 : ℝ)), ((100 : ℝ), (0 : ℝ))], 10, 1⟩ =
      .ok [.dashedStroke (.differenceG [
             .boundaryG (.lineBufferG [((0 : ℝ), (0 : ℝ)), ((100 : ℝ), (0 : ℝ))] 5),
             .pointBufferG ((0 : ℝ), (0 : ℝ)) 5,
             .pointBufferG ((100 : ℝ), (0 : ℝ)) 5]),
           .solidStroke (.lineStringG
             [((46 : ℝ), (20 / 3 : ℝ)), ((54 : ℝ), (0 : ℝ))])] ∧
    (1 - (1 / 2 : ℝ)) • (((46 : ℝ), (20 / 3 : ℝ)) : Coord) +
      (1 / 2 : ℝ) • (((54 : ℝ), (0 : ℝ)) : Coord) =
      (((50 : ℝ), (10 / 3 : ℝ)) : Coord) ∧
    ((10 / 3 : ℝ) ≠ 0) := by
  refine ⟨fordScenarioA_eval, ?_, by norm_num⟩
  rw [Prod.ext_iff]
  constructor
  · simp only [Prod.fst_add, Prod.smul_fst, smul_eq_mul]
    norm_num
  · simp only [Prod.snd_add, Prod.smul_snd, smul_eq_mul]
    norm_num

/-- Helper: segment construction succeeds on distinct coordinates. -/
theorem tsSegment_ok {a b : Coord} (h : a ≠ b) :
    tsSegment a b = .ok ⟨a, b⟩ := by
  unfold tsSegment
  rw [if_neg h]

/-- Helper: segmentize succeeds for subdivision counts of at least 1. -/
theorem segmentize_ok {n : ℤ} (s : Segment) (h : 1 ≤ n) :
    segmentize s n = .ok (subdivision s n.toNat) := by
  unfold segmentize
  rw [if_neg (by omega)]

/-- Helper: the subdivision list has one more element than the
subdivision count. -/
theorem subdivision_length (s : Segment) (m : ℕ) :
    (subdivision s m).length = m + 1 := by
  unfold subdivision
  simp

/-- Helper: segment construction from a nonempty tail list with known
last element. -/
theorem tsSegmentCoords_ok {a b : Coord} {rest : List Coord}
    (hlast : rest.getLast? = some b) (hab : a ≠ b) :
    tsSegmentCoords (a :: rest) = .ok ⟨a, b⟩ := by
  simp only [tsSegmentCoords, hlast]
  rw [if_neg hab]

/-- Helper: positions of the interleaving of the even-position points of
one list with the odd-position points of another, both of length m plus
1. -/
theorem interleave_spec (s1 s2 : List Coord) (m : ℕ)
    (h1 : s1.length = m + 1) (h2 : s2.length = m + 1) (k : ℕ)
    (hk : k < (m + 1) / 2) :
    (flattenPairs (List.zip (alternate true s1) (alternate false s2)))[2 * k]? =
      s1[2 * k]? ∧
    (flattenPairs (List.zip (alternate true s1) (alternate false s2)))[2 * k + 1]? =
      s2[2 * k + 1]? := by
  have hl1 : k < (alternate true s1).length := by
    rw [(alternate_length _).1, h1]
    omega
  have hl2 : k < (alternate false s2).length := by
    rw [(alternate_length _).2, h2]
    omega
  obtain ⟨x, y, hz, hx, hy⟩ :=
    zip_getElem? (alternate true s1) (alternate false s2) k hl1 hl2
  have hfe :=
    (flattenPairs_getElem? (List.zip (alternate true s1) (alternate false s2)) k).1
  have hfo :=
    (flattenPairs_getElem? (List.zip (alternate true s1) (alternate false s2)) k).2
  rw [hz] at hfe hfo
  constructor
  · rw [hfe, ← (alternate_getElem? s1 k).1, hx]
    rfl
  · rw [hfo, ← (alternate_getElem? s2 k).2, hy]
    rfl

/-- Claim C10 counterexample: on the horizontal segment from the origin
to (100, 0) with width 10 and resolution 1 (n equal to 2), the odd
position of the connector holds (54, 0), a point on the base line; it is
not a subdivision point of any segment lying on the minus width over 1.5
perpendicular side, whose points all have second coordinate -20/3.  The
two subdivided segments are the base-crossing bars at x equal to 46 and
54, not per-side parallel segments. -/
theorem claim10_counterexample :
    (zigCoords (fordDifficult
      ⟨[((0 : ℝ), (0 : ℝ)), ((100 : ℝ), (0 : ℝ))], 10, 1⟩))[1]? =
      some (((54 : ℝ), (0 : ℝ)) : Coord) ∧
    ((((54 : ℝ), (0 : ℝ)) : Coord) ∉
      subdivision ⟨((46 : ℝ), (-(20 / 3) : ℝ)), ((54 : ℝ), (-(20 / 3) : ℝ))⟩ 2) := by
  constructor
  · rw [fordScenarioA_eval]
    simp [zigCoords]
  · norm_num [subdivision, List.range_succ, Prod.ext_iff]

/-- Claim C10 (amended): in the obstacle boundary generator, whenever the
floor of width over resolution over 5 is n with n at least 1 (and the
base segment is nondegenerate), the solid zig-zag connector contains
exactly 2 times floor of (n plus 1) over 2 coordinates, an even count;
even positions hold even-indexed subdivision points of the cross-bar that
joins the plus and minus width over 1.5 perpendicular offsets at along
offset minus 4 times resolution, and odd positions hold odd-indexed
subdivision points of the parallel cross-bar at along offset plus 4 times
resolution, because the zip of the two filtered point lists truncates to
the shorter list (dropping the first bar's final even-indexed point
whenever n is even). -/
theorem claim10_zigzag_count (a b : Coord) (rest : List Coord) (w r : ℝ)
    (θ : ℝ) (mid P0 P1 P00 P01 P10 P11 : Coord)
    (hlast : rest.getLast? = some b) (hab : a ≠ b)
    (hn : 1 ≤ ⌊w / r / 5⌋)
    (hθ : θ = Segment.angle ⟨a, b⟩)
    (hmid : mid = Segment.midPoint ⟨a, b⟩)
    (hP0 : P0 = projectCoordinate (w / 1.5) θ mid (0, 1))
    (hP1 : P1 = projectCoordinate (w / 1.5) θ mid (0, -1))
    (hP00 : P00 = projectCoordinate (r * 4) θ P0 (-1, 0))
    (hP01 : P01 = projectCoordinate (r * 4) θ P0 (1, 0))
    (hP10 : P10 = projectCoordinate (r * 4) θ P1 (-1, 0))
    (hP11 : P11 = projectCoordinate (r * 4) θ P1 (1, 0)) :
    ∃ boundary : Geometry, ∃ zig : List Coord,
      fordDifficult ⟨a :: rest, w, r⟩ =
        .ok [.dashedStroke boundary, .solidStroke (.lineStringG zig)] ∧
      zig = flattenPairs (List.zip
        (alternate true (subdivision ⟨P00, P10⟩ (⌊w / r / 5⌋).toNat))
        (alternate false (subdivision ⟨P01, P11⟩ (⌊w / r / 5⌋).toNat))) ∧
      zig.length = 2 * (((⌊w / r / 5⌋).toNat + 1) / 2) ∧
      Even zig.length ∧
      (∀ k : ℕ, 2 * k < zig.length →
        zig[2 * k]? = (subdivision ⟨P00, P10⟩ (⌊w / r / 5⌋).toNat)[2 * k]? ∧
        zig[2 * k + 1]? =
          (subdivision ⟨P01, P11⟩ (⌊w / r / 5⌋).toNat)[2 * k + 1]?) := by
  subst hθ hmid hP0 hP1 hP00 hP01 hP10 hP11
  have hw : w ≠ 0 := by
    intro h
    rw [h] at hn
    norm_num [zero_div] at hn
  have hperp := projectCoordinate_perp_ne (w / 1.5) (Segment.angle ⟨a, b⟩)
    (Segment.midPoint ⟨a, b⟩) (div_ne_zero hw (by norm_num))
  have hne1 := projectCoordinate_translate_ne (r * 4) (Segment.angle ⟨a, b⟩)
    (projectCoordinate (w / 1.5) (Segment.angle ⟨a, b⟩)
      (Segment.midPoint ⟨a, b⟩) (0, 1))
    (projectCoordinate (w / 1.5) (Segment.angle ⟨a, b⟩)
      (Segment.midPoint ⟨a, b⟩) (0, -1)) (-1, 0) hperp
  have hne2 := projectCoordinate_translate_ne (r * 4) (Segment.angle ⟨a, b⟩)
    (projectCoordinate (w / 1.5) (Segment.angle ⟨a, b⟩)
      (Segment.midPoint ⟨a, b⟩) (0, 1))
    (projectCoordinate (w / 1.5) (Segment.angle ⟨a, b⟩)
      (Segment.midPoint ⟨a, b⟩) (0, -1)) (1, 0) hperp
  have hzig_len : ∀ s1 s2 : Segment,
      (flattenPairs (List.zip
        (alternate true (subdivision s1 (⌊w / r / 5⌋).toNat))
        (alternate false (subdivision s2 (⌊w / r / 5⌋).toNat)))).length =
      2 * (((⌊w / r / 5⌋).toNat + 1) / 2) := by
    intro s1 s2
    rw [flattenPairs_length, List.length_zip, (alternate_length _).1,
      (alternate_length _).2, subdivision_length, subdivision_length]
    omega
  refine ⟨.differenceG [.boundaryG (.lineBufferG (a :: rest) (w / 2)),
      .pointBufferG (startPoint (a :: rest)) (w / 2),
      .pointBufferG (endPoint (a :: rest)) (w / 2)],
    _, ?_, rfl, hzig_len _ _, ?_, ?_⟩
  · simp only [fordDifficult, tsSegmentCoords_ok hlast hab,
      tsSegment_ok (Ne.symm (Ne.symm hne1)), tsSegment_ok hne2,
      segmentize_ok _ hn]
  · rw [hzig_len]
    exact even_two_mul _
  · intro k hk
    rw [hzig_len] at hk
    exact interleave_spec _ _ ((⌊w / r / 5⌋).toNat)
      (subdivision_length _ _) (subdivision_length _ _) k (by omega)

/-- Witness for claim C10 on the horizontal segment from the origin to
(100, 0) with width 10 and resolution 1. -/
theorem claim10_zigzag_count_witness :
    ((((0 : ℝ), (0 : ℝ)) : Coord) ≠ (((100 : ℝ), (0 : ℝ)) : Coord)) ∧
    (1 ≤ ⌊(10 : ℝ) / 1 / 5⌋) ∧
    (∃ boundary : Geometry, ∃ zig : List Coord,
      fordDifficult ⟨[((0 : ℝ), (0 : ℝ)), ((100 : ℝ), (0 : ℝ))], 10, 1⟩ =
        .ok [.dashedStroke boundary, .solidStroke (.lineStringG zig)] ∧
      zig.length = 2 * (((⌊(10 : ℝ) / 1 / 5⌋).toNat + 1) / 2)) := by
  have h := claim10_zigzag_count ((0 : ℝ), (0 : ℝ)) ((100 : ℝ), (0 : ℝ))
    [((100 : ℝ), (0 : ℝ))] 10 1 _ _ _ _ _ _ _ _
    (by simp) (by norm_num [Prod.ext_iff]) (by norm_num)
    rfl rfl rfl rfl rfl rfl rfl rfl
  obtain ⟨bd, zig, h1, -, h3, -, -⟩ := h
  exact ⟨by norm_num [Prod.ext_iff], by norm_num, bd, zig, h1, h3⟩

/-- Helper: vertices of a line string node. -/
theorem flatVertices_lineString (cs : List Coord) :
    flatVertices (.lineStringG cs) = cs := rfl

/-- Helper: vertices of an arrow node. -/
theorem flatVertices_arrow (r θ : ℝ) (c : Coord) :
    flatVertices (.arrowG r θ c) = [c] := rfl

/-- Helper: evaluation of the task CLEAR generator on the horizontal
segment from the origin to (10, 0) with width 4, for any resolution. -/
theorem clearScenarioB_eval (r : ℝ) :
    clearTask ⟨[((0 : ℝ), (0 : ℝ)), ((10 : ℝ), (0 : ℝ))], 4, r⟩ =
      .ok [.defaultStroke (.collectG [
             .lineStringG [((0 : ℝ), (0 : ℝ)), ((10 : ℝ), (0 : ℝ))],
             .lineStringG [((0 : ℝ), (3 / 2 : ℝ)), ((10 : ℝ), (3 / 2 : ℝ))],
             .lineStringG [((0 : ℝ), (-(3 / 2) : ℝ)), ((10 : ℝ), (-(3 / 2) : ℝ))],
             .lineStringG [((10 : ℝ), (2 : ℝ)), ((10 : ℝ), (-2 : ℝ))],
             .arrowG r 0 ((10 : ℝ), (3 / 2 : ℝ)),
             .arrowG r 0 ((10 : ℝ), (0 : ℝ)),
             .arrowG r 0 ((10 : ℝ), (-(3 / 2) : ℝ))]),
           .text ((5 : ℝ), (0 : ℝ)) "C" true Real.pi] := by
  have hseg : tsSegmentCoords [((0 : ℝ), (0 : ℝ)), ((10 : ℝ), (0 : ℝ))] =
      .ok ⟨((0 : ℝ), (0 : ℝ)), ((10 : ℝ), (0 : ℝ))⟩ :=
    tsSegmentCoords_ok (by simp) (by norm_num [Prod.ext_iff])
  have hangle : Segment.angle ⟨((0 : ℝ), (0 : ℝ)), ((10 : ℝ), (0 : ℝ))⟩ = 0 :=
    angle_horizontal 0 10 0 (by norm_num)
  simp only [clearTask, hseg, hangle]
  norm_num [projectCoordinate, Segment.midPoint, openArrow,
    Real.cos_zero, Real.sin_zero, Prod.ext_iff]

/-- Claim C2 counterexample: on the segment from the origin to (10, 0)
with width 4, no vertex of the stroke group lies at perpendicular offset
3 from the base line, so the tick marks are not offset by plus or minus
3 as claimed; the actual offsets are 3/2 and 2. -/
theorem claim2_counterexample :
    ((((0 : ℝ), (3 : ℝ)) : Coord) ∉
      strokeVertices (clearTask ⟨[((0 : ℝ), (0 : ℝ)), ((10 : ℝ), (0 : ℝ))], 4, 1⟩)) ∧
    ((((10 : ℝ), (3 : ℝ)) : Coord) ∉
      strokeVertices (clearTask ⟨[((0 : ℝ), (0 : ℝ)), ((10 : ℝ), (0 : ℝ))], 4, 1⟩)) := by
  rw [clearScenarioB_eval 1]
  norm_num [strokeVertices, groupVertices, flatVertices_lineString,
    flatVertices_arrow, Prod.ext_iff]

/-- Claim C2 (amended): the task CLEAR generator on the segment from the
origin to (10, 0) with width 4 places its stroke vertices at
perpendicular offsets plus and minus 3/2 (equal to 0.75 times width
over 2) at x equal to 0 and 10, plus a perpendicular bar at x equal to
10 at offsets plus and minus 2 (equal to 1 times width over 2), and the
label primitive is anchored exactly at (5, 0) with rotation pi (since
the segment angle is 0). -/
theorem claim2_clear_scenarioB (r : ℝ) :
    clearTask ⟨[((0 : ℝ), (0 : ℝ)), ((10 : ℝ), (0 : ℝ))], 4, r⟩ =
      .ok [.defaultStroke (.collectG [
             .lineStringG [((0 : ℝ), (0 : ℝ)), ((10 : ℝ), (0 : ℝ))],
             .lineStringG [((0 : ℝ), (3 / 2 : ℝ)), ((10 : ℝ), (3 / 2 : ℝ))],
             .lineStringG [((0 : ℝ), (-(3 / 2) : ℝ)), ((10 : ℝ), (-(3 / 2) : ℝ))],
             .lineStringG [((10 : ℝ), (2 : ℝ)), ((10 : ℝ), (-2 : ℝ))],
             .arrowG r 0 ((10 : ℝ), (3 / 2 : ℝ)),
             .arrowG r 0 ((10 : ℝ), (0 : ℝ)),
             .arrowG r 0 ((10 : ℝ), (-(3 / 2) : ℝ))]),
           .text ((5 : ℝ), (0 : ℝ)) "C" true Real.pi] ∧
    (3 / 2 : ℝ) = 0.75 * (4 / 2) ∧ (2 : ℝ) = 1 * (4 / 2) :=
  ⟨clearScenarioB_eval r, by norm_num, by norm_num⟩

/-- Claim C3 counterexample: on the segment from the origin to (10, 0)
with width 4, the claimed perpendicular tick mark at the first endpoint
at factor plus or minus 1 would put vertices at (0, 2) and (0, -2);
neither occurs among the stroke group vertices, because the generator
draws lines parallel to the base between the offset points of the first
and second coordinates, with a perpendicular bar only at the second
coordinate. -/
theorem claim3_counterexample :
    ((((0 : ℝ), (2 : ℝ)) : Coord) ∉
      strokeVertices (clearTask ⟨[((0 : ℝ), (0 : ℝ)), ((10 : ℝ), (0 : ℝ))], 4, 1⟩)) ∧
    ((((0 : ℝ), (-2 : ℝ)) : Coord) ∉
      strokeVertices (clearTask ⟨[((0 : ℝ), (0 : ℝ)), ((10 : ℝ), (0 : ℝ))], 4, 1⟩)) := by
  rw [clearScenarioB_eval 1]
  norm_num [strokeVertices, groupVertices, flatVertices_lineString,
    flatVertices_arrow, Prod.ext_iff]

/-- Claim C3 (amended): for every base LineString of at least 2
coordinates with distinct first and last coordinate, the task CLEAR
generator draws, in one stroke group, the base line; two lines parallel
to it joining the perpendicular offsets at factor plus respectively
minus 0.75 of width over 2 of the first and second coordinates; a
perpendicular bar at the second coordinate at factors plus and minus 1;
and open arrow markers at the second coordinate and at its two factor
0.75 lateral offsets; plus a rotated and flipped single-character label
anchored at the midpoint of the first-to-last segment with rotation pi
minus the segment angle. -/
theorem claim3_clear_structure (a c1 b : Coord) (rest : List Coord)
    (w r θ : ℝ) (hlast : (c1 :: rest).getLast? = some b) (hab : a ≠ b)
    (hθ : θ = Segment.angle ⟨a, b⟩) :
    clearTask ⟨a :: c1 :: rest, w, r⟩ =
      .ok [.defaultStroke (.collectG [
             .lineStringG (a :: c1 :: rest),
             .lineStringG [projectCoordinate (w / 2) θ a (0, 0.75),
                           projectCoordinate (w / 2) θ c1 (0, 0.75)],
             .lineStringG [projectCoordinate (w / 2) θ a (0, -0.75),
                           projectCoordinate (w / 2) θ c1 (0, -0.75)],
             .lineStringG [projectCoordinate (w / 2) θ c1 (0, 1),
                           projectCoordinate (w / 2) θ c1 (0, -1)],
             .arrowG r θ (projectCoordinate (w / 2) θ c1 (0, 0.75)),
             .arrowG r θ c1,
             .arrowG r θ (projectCoordinate (w / 2) θ c1 (0, -0.75))]),
           .text (Segment.midPoint ⟨a, b⟩) "C" true (Real.pi - θ)] := by
  subst hθ
  simp only [clearTask, tsSegmentCoords_ok hlast hab, openArrow,
    List.map_cons, List.map_nil, List.cons_append, List.nil_append]

/-- Witness for claim C3 on the segment from the origin to (10, 0) with
width 4 and resolution 1. -/
theorem claim3_clear_structure_witness :
    (([((10 : ℝ), (0 : ℝ))] : List Coord).getLast? =
      some (((10 : ℝ), (0 : ℝ)) : Coord)) ∧
    ((((0 : ℝ), (0 : ℝ)) : Coord) ≠ (((10 : ℝ), (0 : ℝ)) : Coord)) ∧
    clearTask ⟨[((0 : ℝ), (0 : ℝ)), ((10 : ℝ), (0 : ℝ))], 4, 1⟩ =
      .ok [.defaultStroke (.collectG [
             .lineStringG [((0 : ℝ), (0 : ℝ)), ((10 : ℝ), (0 : ℝ))],
             .lineStringG [projectCoordinate ((4 : ℝ) / 2)
                 (Segment.angle ⟨((0 : ℝ), (0 : ℝ)), ((10 : ℝ), (0 : ℝ))⟩)
                 ((0 : ℝ), (0 : ℝ)) (0, 0.75),
               projectCoordinate ((4 : ℝ) / 2)
                 (Segment.angle ⟨((0 : ℝ), (0 : ℝ)), ((10 : ℝ), (0 : ℝ))⟩)
                 ((10 : ℝ), (0 : ℝ)) (0, 0.75)],
             .lineStringG [projectCoordinate ((4 : ℝ) / 2)
                 (Segment.angle ⟨((0 : ℝ), (0 : ℝ)), ((10 : ℝ), (0 : ℝ))⟩)
                 ((0 : ℝ), (0 : ℝ)) (0, -0.75),
               projectCoordinate ((4 : ℝ) / 2)
                 (Segment.angle ⟨((0 : ℝ), (0 : ℝ)), ((10 : ℝ), (0 : ℝ))⟩)
                 ((10 : ℝ), (0 : ℝ)) (0, -0.75)],
             .lineStringG [projectCoordinate ((4 : ℝ) / 2)
                 (Segment.angle ⟨((0 : ℝ), (0 : ℝ)), ((10 : ℝ), (0 : ℝ))⟩)
                 ((10 : ℝ), (0 : ℝ)) (0, 1),
               projectCoordinate ((4 : ℝ) / 2)
                 (Segment.angle ⟨((0 : ℝ), (0 : ℝ)), ((10 : ℝ), (0 : ℝ))⟩)
                 ((10 : ℝ), (0 : ℝ)) (0, -1)],
             .arrowG 1 (Segment.angle ⟨((0 : ℝ), (0 : ℝ)), ((10 : ℝ), (0 : ℝ))⟩)
               (projectCoordinate ((4 : ℝ) / 2)
                 (Segment.angle ⟨((0 : ℝ), (0 : ℝ)), ((10 : ℝ), (0 : ℝ))⟩)
                 ((10 : ℝ), (0 : ℝ)) (0, 0.75)),
             .arrowG 1 (Segment.angle ⟨((0 : ℝ), (0 : ℝ)), ((10 : ℝ), (0 : ℝ))⟩)
               ((10 : ℝ), (0 : ℝ)),
             .arrowG 1 (Segment.angle ⟨((0 : ℝ), (0 : ℝ)), ((10 : ℝ), (0 : ℝ))⟩)
               (projectCoordinate ((4 : ℝ) / 2)
                 (Segment.angle ⟨((0 : ℝ), (0 : ℝ)), ((10 : ℝ), (0 : ℝ))⟩)
                 ((10 : ℝ), (0 : ℝ)) (0, -0.75))]),
           .text (Segment.midPoint ⟨((0 : ℝ), (0 : ℝ)), ((10 : ℝ), (0 : ℝ))⟩)
             "C" true
             (Real.pi - Segment.angle ⟨((0 : ℝ), (0 : ℝ)), ((10 : ℝ), (0 : ℝ))⟩)] :=
  ⟨by simp, by norm_num [Prod.ext_iff],
   claim3_clear_structure ((0 : ℝ), (0 : ℝ)) ((10 : ℝ), (0 : ℝ))
     ((10 : ℝ), (0 : ℝ)) [] 4 1 _ (by simp) (by norm_num [Prod.ext_iff]) rfl⟩

end ODIN
